import Mathlib

/-!
Verification of the SimpleLoan lending-pool accounting core.

The definitions below are a shallow embedding of the Python sources under
`src/backend/src`.  Python arbitrary-precision integers are modelled as `Int`;
Python floor division `//` is `Int.fdiv`; code that raises an exception is
modelled by `Option`/`Except`-returning variants (suffix `?` or an explicit
error type).  Wall-clock reads (`time.time()`) are passed in as an explicit
`now` argument.  Protocol constants that the source writes as
`int(f * RAY)` with a float literal `f` are embedded as the exact integers
those float expressions produce in Python (e.g. `int(0.05 * RAY)` is
`50000000000000002382364672`, not `5 * 10^25`).
-/

namespace SimpleLoan

/-! ## Fixed-point primitives (`src/backend/src/utils/ray_math.py`) -/

/-- RAY constant: `10^27` (`ray_math.RAY`). -/
def RAY : Int := 10 ^ 27

/-- `ray_math.HALF_RAY = RAY // 2`. -/
def HALF_RAY : Int := Int.fdiv RAY 2

/-- `ray_math.SECONDS_PER_YEAR` (365 days). -/
def SECONDS_PER_YEAR : Int := 31536000

/-- Python floor division that raises `ZeroDivisionError` on a zero
denominator: `none` models the raised exception. -/
def pydiv (a b : Int) : Option Int :=
  if b = 0 then none else some (Int.fdiv a b)

/-- `ray_math.ray_mul`, total form: the only division is by the nonzero
constant `RAY`, so the Python function never raises. -/
def ray_mul (a b : Int) : Int :=
  if a = 0 ∨ b = 0 then 0 else Int.fdiv (a * b + HALF_RAY) RAY

/-- `ray_math.ray_mul` with the division modelled fallibly (shown below to
always succeed). -/
def ray_mul? (a b : Int) : Option Int :=
  if a = 0 ∨ b = 0 then some 0 else pydiv (a * b + HALF_RAY) RAY

/-- `ray_math.ray_div`, total core used when the denominator is known to be
nonzero: `(a * RAY + b // 2) // b`. -/
def ray_div (a b : Int) : Int :=
  Int.fdiv (a * RAY + Int.fdiv b 2) b

/-- `ray_math.ray_div` as written: raises `ZeroDivisionError` (modelled as
`none`) when `b = 0`. -/
def ray_div? (a b : Int) : Option Int :=
  if b = 0 then none else some (ray_div a b)

/-- The specification's rounding contract (spec section 4.1): round-half-up of
`num / den`, "implemented by adding `den/2` to the numerator before integer
division". -/
def roundHalfUp (num den : Int) : Int :=
  Int.fdiv (num + Int.fdiv den 2) den

/-- `ray_math.accrue_index`: `index * (1 + rate_per_second * time_delta)` in
RAY fixed point, identity when `time_delta = 0`. -/
def accrue_index (current_index rate_per_second time_delta : Int) : Int :=
  if time_delta = 0 then current_index
  else ray_mul current_index (RAY + rate_per_second * time_delta)

/-! ## Interest-rate model (`src/backend/src/services/interest_rate_model.py`)

The class constants are `int(f * RAY)` for float literals `f`; the embedded
values are the exact integers Python produces. -/

/-- `InterestRateModel.BASE_BORROW_RATE = int(0.02 * RAY)`. -/
def BASE_BORROW_RATE : Int := 20000000000000001811939328

/-- `InterestRateModel.OPTIMAL_UTILIZATION = int(0.80 * RAY)`. -/
def OPTIMAL_UTILIZATION : Int := 800000000000000038117834752

/-- `InterestRateModel.SLOPE1 = int(0.20 * RAY)`. -/
def SLOPE1 : Int := 200000000000000009529458688

/-- `InterestRateModel.SLOPE2 = int(1.00 * RAY)`. -/
def SLOPE2 : Int := 1000000000000000013287555072

/-- `InterestRateModel.calculate_borrow_rate_annual`. -/
def calculate_borrow_rate_annual (utilization : Int) : Int :=
  if utilization ≤ 0 then BASE_BORROW_RATE
  else if utilization ≤ OPTIMAL_UTILIZATION then
    BASE_BORROW_RATE + ray_mul SLOPE1 (ray_div utilization OPTIMAL_UTILIZATION)
  else
    BASE_BORROW_RATE + SLOPE1 +
      ray_mul SLOPE2 (ray_div (utilization - OPTIMAL_UTILIZATION) (RAY - OPTIMAL_UTILIZATION))

/-- `InterestRateModel._to_per_second`: `ray_div(rate_annual, SECONDS_PER_YEAR)`. -/
def to_per_second (rate_annual : Int) : Int :=
  ray_div rate_annual SECONDS_PER_YEAR

/-- `InterestRateModel.calculate_rates`: returns
`(liquidity_rate_per_sec, borrow_rate_per_sec)`. -/
def calculate_rates (total_liquidity total_borrowed reserve_factor : Int) : Int × Int :=
  if total_liquidity ≤ 0 then (0, 0)
  else
    let utilization := Int.fdiv (total_borrowed * RAY) total_liquidity
    let borrow_rate_annual := calculate_borrow_rate_annual utilization
    let borrow_rate_per_sec := to_per_second borrow_rate_annual
    (ray_mul (ray_mul borrow_rate_per_sec utilization) (RAY - reserve_factor),
     borrow_rate_per_sec)

/-! ## Debt position (`src/backend/src/models/debt_position.py`) -/

/-- `DebtPosition.calculate_current_debt`, total form: the `ray_div`
denominator `borrow_index_at_open` is guarded to be nonzero. -/
def calculate_current_debt (principal borrow_index_at_open current_borrow_index : Int) : Int :=
  if borrow_index_at_open = 0 then principal
  else ray_mul principal (ray_div current_borrow_index borrow_index_at_open)

/-- `DebtPosition.calculate_current_debt` with the inner division modelled
fallibly, to express that the function never raises. -/
def calculate_current_debt? (principal borrow_index_at_open current_borrow_index : Int) :
    Option Int :=
  if borrow_index_at_open = 0 then some principal
  else (ray_div? current_borrow_index borrow_index_at_open).map (fun r => ray_mul principal r)

/-! ## Theorems for claims C3, C2, C10 -/

/-- C3: the fixed-point primitives satisfy their contract:
`ray_mul a b = round_half_up(a * b / S)` for all integers, and
`ray_div a b = round_half_up(a * S / b)` exactly when `b ≠ 0`, failing with a
divide-by-zero error exactly when `b = 0`; `ray_mul` never fails.  Here
`round_half_up` is the spec's rounding (add half the denominator, then floor
divide), and `S = RAY = 10^27`. -/
theorem ray_math_contract (a b : Int) :
    ray_mul? a b = some (roundHalfUp (a * b) RAY) ∧
    ray_div? a b = (if b = 0 then none else some (roundHalfUp (a * RAY) b)) := by
  constructor
  · by_cases h : a = 0 ∨ b = 0
    · have hab : a * b = 0 := by
        rcases h with h | h <;> simp [h]
      simp only [ray_mul?, if_pos h, hab, roundHalfUp]
      decide
    · simp only [ray_mul?, if_neg h, pydiv, roundHalfUp, HALF_RAY]
      have hRAY : RAY ≠ 0 := by decide
      simp [hRAY]
  · by_cases hb : b = 0
    · simp [ray_div?, hb]
    · simp [ray_div?, hb, ray_div, roundHalfUp]

/-- C3 witness: evaluate the contract at `a = 7 * RAY`, `b = 2 * RAY`. -/
theorem ray_math_contract_witness :
    ray_mul? (7 * RAY) (2 * RAY) = some (roundHalfUp (7 * RAY * (2 * RAY)) RAY) ∧
    ray_div? (7 * RAY) (2 * RAY) =
      (if (2 * RAY : Int) = 0 then none else some (roundHalfUp (7 * RAY * RAY) (2 * RAY))) :=
  ray_math_contract (7 * RAY) (2 * RAY)

/-- C2: for every utilization the interest-rate model computes, the per-second
borrow rate returned by `calculate_rates` is the RAY fixed-point divide of the
annual borrow rate by `SECONDS_PER_YEAR = 31536000`, i.e.
`round_half_up(borrow_annual * S / seconds_per_year)`. -/
theorem borrow_rate_per_second_is_annual_div_seconds
    (total_liquidity total_borrowed reserve_factor : Int)
    (h : 0 < total_liquidity) :
    (calculate_rates total_liquidity total_borrowed reserve_factor).2 =
      roundHalfUp
        (calculate_borrow_rate_annual (Int.fdiv (total_borrowed * RAY) total_liquidity) * RAY)
        SECONDS_PER_YEAR := by
  have h' : ¬ total_liquidity ≤ 0 := not_le.mpr h
  simp [calculate_rates, h', to_per_second, ray_div, roundHalfUp]

/-- C2 witness: a reserve with liquidity 1000 and borrows 500. -/
theorem borrow_rate_per_second_witness :
    (0 : Int) < 1000 ∧
    (calculate_rates 1000 500 0).2 =
      roundHalfUp (calculate_borrow_rate_annual (Int.fdiv (500 * RAY) 1000) * RAY)
        SECONDS_PER_YEAR :=
  ⟨by decide, borrow_rate_per_second_is_annual_div_seconds 1000 500 0 (by decide)⟩

/-- C10: computing a position's current debt is total: the fallible form never
fails (no divide-by-zero for any inputs), and when `borrow_index_at_open = 0`
the stored principal is returned unchanged. -/
theorem calculate_current_debt_total (principal borrow_index_at_open current_borrow_index : Int) :
    calculate_current_debt? principal borrow_index_at_open current_borrow_index =
      some (calculate_current_debt principal borrow_index_at_open current_borrow_index) ∧
    (borrow_index_at_open = 0 →
      calculate_current_debt principal borrow_index_at_open current_borrow_index = principal) := by
  constructor
  · by_cases h : borrow_index_at_open = 0
    · simp [calculate_current_debt?, calculate_current_debt, h]
    · simp [calculate_current_debt?, calculate_current_debt, ray_div?, h]
  · intro h
    simp [calculate_current_debt, h]

/-- C10 witness: a position opened at a zero recorded index. -/
theorem calculate_current_debt_total_witness :
    calculate_current_debt? 12345 0 RAY = some (calculate_current_debt 12345 0 RAY) ∧
    ((0 : Int) = 0 → calculate_current_debt 12345 0 RAY = 12345) :=
  calculate_current_debt_total 12345 0 RAY

/-! ## Index accrual (`src/backend/src/services/interest_calculator.py`) -/

/-- `InterestCalculator.accrue_indices`: advances both indices from
`last_update_timestamp` to `now` (the code reads `int(time.time())`, passed
here explicitly); a non-positive time delta leaves both indices unchanged. -/
def accrue_indices (liquidity_index borrow_index liquidity_rate borrow_rate
    last_update_timestamp now : Int) : Int × Int :=
  let time_delta := now - last_update_timestamp
  if time_delta ≤ 0 then (liquidity_index, borrow_index)
  else (accrue_index liquidity_index liquidity_rate time_delta,
        accrue_index borrow_index borrow_rate time_delta)

/-- State carried across repeated accruals of one reserve: both indices and
the last update time (`ReserveService.update_indices` persists `now` as the
new `last_update_timestamp` after each call). -/
structure IndexState where
  liquidity_index : Int
  borrow_index : Int
  last_update_timestamp : Int
  deriving DecidableEq

/-- A sequence of accruals at the given wall-clock times, each one performed
by `accrue_indices` and persisted as in `ReserveService.update_indices`. -/
def run_accruals (liquidity_rate borrow_rate : Int) : IndexState → List Int → IndexState
  | s, [] => s
  | s, t :: ts =>
      let p := accrue_indices s.liquidity_index s.borrow_index
        liquidity_rate borrow_rate s.last_update_timestamp t
      run_accruals liquidity_rate borrow_rate ⟨p.1, p.2, t⟩ ts

theorem RAY_pos : (0 : Int) < RAY := by decide

theorem HALF_RAY_nonneg : (0 : Int) ≤ HALF_RAY := by decide

/-- Multiplying a non-negative RAY value by a growth factor of at least one
(RAY) does not decrease it. -/
theorem le_ray_mul_of_ray_le {i g : Int} (hi : 0 ≤ i) (hg : RAY ≤ g) :
    i ≤ ray_mul i g := by
  by_cases hzero : i = 0 ∨ g = 0
  · rcases hzero with h | h
    · simp [ray_mul, h]
    · exact absurd (h ▸ hg) (by decide)
  · rw [ray_mul, if_neg hzero, Int.fdiv_eq_ediv _ (le_of_lt RAY_pos)]
    rw [Int.le_ediv_iff_mul_le RAY_pos]
    have h1 : i * RAY ≤ i * g := mul_le_mul_of_nonneg_left hg hi
    have h2 : (0 : Int) ≤ HALF_RAY := HALF_RAY_nonneg
    linarith

/-- One `accrue_index` step with a non-negative rate and a positive time delta
does not decrease a non-negative index. -/
theorem le_accrue_index {i r td : Int} (hi : 0 ≤ i) (hr : 0 ≤ r) (htd : 0 ≤ td) :
    i ≤ accrue_index i r td := by
  by_cases h : td = 0
  · simp [accrue_index, h]
  · rw [accrue_index, if_neg h]
    exact le_ray_mul_of_ray_le hi (by have := mul_nonneg hr htd; linarith)

/-- Each component of `accrue_indices` is at least the incoming index, for
non-negative indices and rates. -/
theorem le_accrue_indices (li bi lr br last now : Int)
    (hli : 0 ≤ li) (hbi : 0 ≤ bi) (hlr : 0 ≤ lr) (hbr : 0 ≤ br) :
    li ≤ (accrue_indices li bi lr br last now).1 ∧
    bi ≤ (accrue_indices li bi lr br last now).2 := by
  unfold accrue_indices
  by_cases h : now - last ≤ 0
  · simp [h]
  · push_neg at h
    simp only [if_neg (not_le.mpr h)]
    exact ⟨le_accrue_index hli hlr (by linarith), le_accrue_index hbi hbr (by linarith)⟩

/-- C9: for non-negative per-second rates and non-negative starting indices,
the liquidity and borrow indices are non-decreasing across any sequence of
accruals (each accrual persisting its timestamp, whatever the time deltas
are), and a single accrual with a zero or negative time delta returns both
indices exactly unchanged, so repeating accrual at the same timestamp is a
no-op. -/
theorem accrual_monotone_and_idempotent (lr br : Int) (s : IndexState) (ts : List Int)
    (now : Int)
    (hli : 0 ≤ s.liquidity_index) (hbi : 0 ≤ s.borrow_index)
    (hlr : 0 ≤ lr) (hbr : 0 ≤ br) :
    (s.liquidity_index ≤ (run_accruals lr br s ts).liquidity_index ∧
     s.borrow_index ≤ (run_accruals lr br s ts).borrow_index) ∧
    (now ≤ s.last_update_timestamp →
      accrue_indices s.liquidity_index s.borrow_index lr br s.last_update_timestamp now =
        (s.liquidity_index, s.borrow_index)) := by
  constructor
  · induction ts generalizing s with
    | nil => exact ⟨le_refl _, le_refl _⟩
    | cons t ts ih =>
        have hstep := le_accrue_indices s.liquidity_index s.borrow_index
          lr br s.last_update_timestamp t hli hbi hlr hbr
        have hrec := ih ⟨(accrue_indices s.liquidity_index s.borrow_index lr br
            s.last_update_timestamp t).1,
          (accrue_indices s.liquidity_index s.borrow_index lr br
            s.last_update_timestamp t).2, t⟩
          (le_trans hli hstep.1) (le_trans hbi hstep.2)
        exact ⟨le_trans hstep.1 hrec.1, le_trans hstep.2 hrec.2⟩
  · intro hnow
    unfold accrue_indices
    simp [show now - s.last_update_timestamp ≤ 0 by linarith]

/-- C9 witness: starting from indices `RAY` at time 1000 with small rates,
running accruals at times 2000 then 1500 only grows the indices, and accruing
again at time 1000 is a no-op. -/
theorem accrual_monotone_witness :
    ((RAY ≤ (run_accruals 5 7 ⟨RAY, RAY, 1000⟩ [2000, 1500]).liquidity_index ∧
      RAY ≤ (run_accruals 5 7 ⟨RAY, RAY, 1000⟩ [2000, 1500]).borrow_index) ∧
     ((1000 : Int) ≤ 1000 → accrue_indices RAY RAY 5 7 1000 1000 = (RAY, RAY))) :=
  accrual_monotone_and_idempotent 5 7 ⟨RAY, RAY, 1000⟩ [2000, 1500] 1000
    (by decide) (by decide) (by decide) (by decide)

/-! ## Supply accounting (`interest_calculator.py`, `supply_position.py`,
`reserve_service.py`) -/

/-- `InterestCalculator.calculate_atoken_amount`:
`ray_div(underlying * RAY, liquidity_index) // RAY`. -/
def calculate_atoken_amount (underlying_amount liquidity_index : Int) : Int :=
  Int.fdiv (ray_div (underlying_amount * RAY) liquidity_index) RAY

/-- A supply position (`SupplyPosition`): aToken share amount and the
liquidity index observed when the shares were minted. -/
structure SupplyPos where
  atoken_amount : Int
  liquidity_index_at_supply : Int
  deriving DecidableEq

/-- `SupplyPosition.calculate_underlying_amount`:
`ray_mul(atoken * RAY, ray_div(current_index, index_at_supply)) // RAY`. -/
def calculate_underlying_amount (pos : SupplyPos) (current_liquidity_index : Int) : Int :=
  Int.fdiv
    (ray_mul (pos.atoken_amount * RAY)
      (ray_div current_liquidity_index pos.liquidity_index_at_supply))
    RAY

/-- Result of `ReserveService.supply` restricted to the quantities the spec
talks about: the minted shares, the index recorded on the new position, and
the reserve's new total liquidity. -/
structure SupplyOutcome where
  atoken_amount : Int
  liquidity_index_at_supply : Int
  new_total_liquidity : Int
  deriving DecidableEq

/-- `ReserveService.supply` after index accrual: `liquidity_index` is the
post-accrual index.  `none` models the `ValueError` raised for a non-positive
amount.  (Rate recomputation touches neither of the returned fields.) -/
def supply (amount total_liquidity liquidity_index : Int) : Option SupplyOutcome :=
  if amount ≤ 0 then none
  else some
    ⟨calculate_atoken_amount amount liquidity_index,
     liquidity_index,
     total_liquidity + amount⟩

/-- C7 counterexample: with `amount = 1` and post-accrual
`liquidity_index = 2 * RAY`, supply mints `0` shares while
`round_half_up(amount * S / liquidity_index) = round_half_up(1/2) = 1`, so the
claimed share formula is false. -/
theorem supply_shares_not_roundHalfUp :
    (supply 1 0 (2 * RAY)).map SupplyOutcome.atoken_amount = some 0 ∧
    roundHalfUp (1 * RAY) (2 * RAY) = 1 ∧
    ¬ ((supply 1 0 (2 * RAY)).map SupplyOutcome.atoken_amount =
        some (roundHalfUp (1 * RAY) (2 * RAY))) := by
  refine ⟨by decide, by decide, ?_⟩
  intro h
  rw [show (supply 1 0 (2 * RAY)).map SupplyOutcome.atoken_amount = some 0 by decide,
    show roundHalfUp (1 * RAY) (2 * RAY) = 1 by decide] at h
  exact absurd (Option.some.inj h) (by decide)

/-- C7 (amended): for `amount > 0` and post-accrual `liquidity_index > 0`,
supply succeeds and mints
`shares = floor(round_half_up(amount * S * S / liquidity_index) / S)`
(the fixed-point divide `ray_div(amount * S, liquidity_index)` scaled back
down by a floor division — not `round_half_up(amount * S / liquidity_index)`),
increases `total_liquidity` by exactly `amount`, and records
`index_at_open` equal to the post-accrual liquidity index; supply fails when
`amount ≤ 0`. -/
theorem supply_spec (amount total_liquidity liquidity_index : Int)
    (hI : 0 < liquidity_index) :
    (0 < amount →
      supply amount total_liquidity liquidity_index =
        some ⟨Int.fdiv (roundHalfUp (amount * RAY * RAY) liquidity_index) RAY,
              liquidity_index,
              total_liquidity + amount⟩) ∧
    (amount ≤ 0 → supply amount total_liquidity liquidity_index = none) := by
  constructor
  · intro ha
    have ha' : ¬ amount ≤ 0 := not_le.mpr ha
    simp only [supply, if_neg ha', calculate_atoken_amount, ray_div, roundHalfUp, mul_assoc]
  · intro ha
    simp [supply, ha]

/-- C7 witness: supplying 1000 satoshis at index `RAY` into liquidity 500
mints 1000 shares, records index `RAY`, and raises liquidity to 1500 (and a
zero amount fails). -/
theorem supply_spec_witness :
    ((0 : Int) < 1000 →
      supply 1000 500 RAY =
        some ⟨Int.fdiv (roundHalfUp (1000 * RAY * RAY) RAY) RAY, RAY, 500 + 1000⟩) ∧
    ((1000 : Int) ≤ 0 → supply 1000 500 RAY = none) :=
  supply_spec 1000 500 RAY (by decide)

/-! ## Withdraw (`ReserveService.withdraw`) -/

/-- Sum of the current underlying values of a list of supply positions
(the accumulation loop over `positions` in `ReserveService.withdraw`). -/
def total_underlying : List SupplyPos → Int → Int
  | [], _ => 0
  | p :: ps, current_index =>
      calculate_underlying_amount p current_index + total_underlying ps current_index

/-- Sum of the aToken amounts of a list of supply positions. -/
def total_atokens : List SupplyPos → Int
  | [] => 0
  | p :: ps => p.atoken_amount + total_atokens ps

/-- The oldest-first burn loop of `ReserveService.withdraw`: burns up to
`remaining` shares across the positions and returns the updated positions
together with the amount that could not be burned. -/
def burnFIFO : List SupplyPos → Int → List SupplyPos × Int
  | [], remaining => ([], remaining)
  | p :: ps, remaining =>
      if remaining ≤ 0 then (p :: ps, remaining)
      else
        let burn_here := min p.atoken_amount remaining
        let rest := burnFIFO ps (remaining - burn_here)
        (⟨p.atoken_amount - burn_here, p.liquidity_index_at_supply⟩ :: rest.1, rest.2)

/-- The distinct `ValueError`s raised by `ReserveService.withdraw`, in raise
order. -/
inductive WithdrawError where
  | negativeAmount
  | noPositions
  | noBalance
  | insufficientBalance
  | insufficientLiquidity
  | zeroBurn
  | burnInconsistent
  deriving DecidableEq

/-- The tuple returned by `ReserveService.withdraw` together with the burned
position list and the reserve's new liquidity. -/
structure WithdrawOutcome where
  amount_withdrawn : Int
  atoken_burned : Int
  new_positions : List SupplyPos
  new_total_liquidity : Int
  liquidity_index : Int
  deriving DecidableEq

/-- The amount the withdrawal resolves to: the request, or the full current
underlying balance when the request is `0` (`amount_to_withdraw` in
`ReserveService.withdraw`). -/
def amount_to_withdraw (positions : List SupplyPos) (liquidity_index amount : Int) : Int :=
  if amount = 0 then total_underlying positions liquidity_index else amount

/-- `ReserveService.withdraw` after index accrual: `liquidity_index` is the
post-accrual index and `positions` the user's supply positions for the asset
(oldest first).  `amount = 0` requests a full withdrawal.  The source binds
the intermediate sums and the resolved amount to local variables; they are
written out through `total_underlying`, `total_atokens` and
`amount_to_withdraw` here. -/
def withdraw (positions : List SupplyPos) (total_liquidity liquidity_index amount : Int) :
    Except WithdrawError WithdrawOutcome :=
  if amount < 0 then .error .negativeAmount
  else if positions = [] then .error .noPositions
  else if total_underlying positions liquidity_index ≤ 0 ∨ total_atokens positions ≤ 0 then
    .error .noBalance
  else if total_underlying positions liquidity_index <
      amount_to_withdraw positions liquidity_index amount then
    .error .insufficientBalance
  else if total_liquidity < amount_to_withdraw positions liquidity_index amount then
    .error .insufficientLiquidity
  else if calculate_atoken_amount (amount_to_withdraw positions liquidity_index amount)
      liquidity_index ≤ 0 then
    .error .zeroBurn
  else if 0 < (burnFIFO positions
      (calculate_atoken_amount (amount_to_withdraw positions liquidity_index amount)
        liquidity_index)).2 then
    .error .burnInconsistent
  else
    .ok ⟨amount_to_withdraw positions liquidity_index amount,
         calculate_atoken_amount (amount_to_withdraw positions liquidity_index amount)
           liquidity_index,
         (burnFIFO positions
           (calculate_atoken_amount (amount_to_withdraw positions liquidity_index amount)
             liquidity_index)).1,
         total_liquidity - amount_to_withdraw positions liquidity_index amount,
         liquidity_index⟩

/-! ### Arithmetic facts used to show the burn guard is unreachable -/

theorem HALF_RAY_lt_RAY : HALF_RAY < RAY := by decide

theorem one_le_RAY : (1 : Int) ≤ RAY := by decide

/-- Nested floor division by two positive divisors collapses to division by
their product. -/
theorem ediv_ediv {a b c : Int} (hb : 0 < b) (hc : 0 < c) :
    a / b / c = a / (b * c) := by
  have hbc : 0 < b * c := mul_pos hb hc
  have hmod := Int.ediv_add_emod a (b * c)
  have hr0 : 0 ≤ a % (b * c) := Int.emod_nonneg a (ne_of_gt hbc)
  have hrlt : a % (b * c) < b * c := Int.emod_lt_of_pos a hbc
  have ha : a = a % (b * c) + a / (b * c) * c * b := by linear_combination -hmod
  conv_lhs => rw [ha]
  rw [Int.add_mul_ediv_right _ _ (ne_of_gt hb), Int.add_mul_ediv_right _ _ (ne_of_gt hc)]
  have hzero : (a % (b * c)) / b / c = 0 := by
    have h1 : 0 ≤ (a % (b * c)) / b := Int.ediv_nonneg hr0 (le_of_lt hb)
    have h2 : (a % (b * c)) / b < c := by
      rw [Int.ediv_lt_iff_lt_mul hb]
      calc a % (b * c) < b * c := hrlt
        _ = c * b := mul_comm b c
    exact Int.ediv_eq_zero_of_lt h1 h2
  rw [hzero, zero_add]

/-- For a current index `I ≥ 0` and an opening index `j ≥ RAY`, the RAY ratio
`ray_div I j` is at most `I`. -/
theorem ray_div_index_le {I j : Int} (hI : 0 ≤ I) (hj : RAY ≤ j) :
    ray_div I j ≤ I := by
  have hj0 : 0 < j := lt_of_lt_of_le RAY_pos hj
  rw [ray_div, Int.fdiv_eq_ediv _ (le_of_lt hj0), Int.fdiv_eq_ediv _ (by decide : (0:Int) ≤ 2)]
  have hhalf : j / 2 < j := by omega
  have hmul : I * RAY ≤ I * j := mul_le_mul_of_nonneg_left hj hI
  have : I * RAY + j / 2 < (I + 1) * j := by nlinarith
  calc (I * RAY + j / 2) / j ≤ ((I + 1) * j - 1) / j := Int.ediv_le_ediv hj0 (by omega)
    _ ≤ I := by
        rw [show (I + 1) * j - 1 = (j - 1) + I * j by ring,
          Int.add_mul_ediv_right _ _ (ne_of_gt hj0)]
        have : (j - 1) / j = 0 := Int.ediv_eq_zero_of_lt (by omega) (by omega)
        omega

/-- `ray_div I j` is non-negative for `I ≥ 0`, `j ≥ RAY`. -/
theorem ray_div_index_nonneg {I j : Int} (hI : 0 ≤ I) (hj : RAY ≤ j) :
    0 ≤ ray_div I j := by
  have hj0 : 0 < j := lt_of_lt_of_le RAY_pos hj
  rw [ray_div, Int.fdiv_eq_ediv _ (le_of_lt hj0), Int.fdiv_eq_ediv _ (by decide : (0:Int) ≤ 2)]
  refine Int.ediv_nonneg ?_ (le_of_lt hj0)
  have h1 : 0 ≤ I * RAY := mul_nonneg hI (le_of_lt RAY_pos)
  have h2 : 0 ≤ j / 2 := Int.ediv_nonneg (le_of_lt hj0) (by decide)
  linarith

/-- Core per-position bound: a position's computed underlying value, scaled
by RAY, never exceeds `share_amount * current_index`, provided the shares are
non-negative and the opening index is at least RAY. -/
theorem underlying_mul_RAY_le (p : SupplyPos) (I : Int)
    (hs : 0 ≤ p.atoken_amount) (hj : RAY ≤ p.liquidity_index_at_supply) (hI : 0 ≤ I) :
    calculate_underlying_amount p I * RAY ≤ p.atoken_amount * I := by
  set s := p.atoken_amount with hsdef
  set r := ray_div I p.liquidity_index_at_supply with hrdef
  have hr_le : r ≤ I := ray_div_index_le hI hj
  have hr0 : 0 ≤ r := ray_div_index_nonneg hI hj
  rw [calculate_underlying_amount, ← hrdef, ← hsdef]
  by_cases hzero : s * RAY = 0 ∨ r = 0
  · rw [ray_mul, if_pos hzero, Int.fdiv_eq_ediv _ (le_of_lt RAY_pos), Int.zero_ediv, zero_mul]
    exact mul_nonneg hs hI
  · rw [ray_mul, if_neg hzero, Int.fdiv_eq_ediv _ (le_of_lt RAY_pos),
      Int.fdiv_eq_ediv _ (le_of_lt RAY_pos), ediv_ediv RAY_pos RAY_pos]
    set q := s * I / RAY with hqdef
    have hqmul : q * RAY ≤ s * I := by
      rw [hqdef, mul_comm s I]
      exact Int.ediv_mul_le (I * s) (ne_of_gt RAY_pos)
    have hle_q : (s * RAY * r + HALF_RAY) / (RAY * RAY) ≤ q := by
      have hmod := Int.ediv_add_emod (s * I) RAY
      have hm0 : 0 ≤ s * I % RAY := Int.emod_nonneg _ (ne_of_gt RAY_pos)
      have hmlt : s * I % RAY < RAY := Int.emod_lt_of_pos _ RAY_pos
      have h1 : s * RAY * r ≤ s * RAY * I :=
        mul_le_mul_of_nonneg_left hr_le (mul_nonneg hs (le_of_lt RAY_pos))
      have h2 : s * RAY * I = q * (RAY * RAY) + (s * I % RAY) * RAY := by
        have : s * I = RAY * q + s * I % RAY := by rw [hqdef]; linarith [hmod]
        nlinarith [this]
      have h3 : (s * I % RAY) * RAY ≤ (RAY - 1) * RAY :=
        mul_le_mul_of_nonneg_right (by omega) (le_of_lt RAY_pos)
      have h4 : s * RAY * r + HALF_RAY < (q + 1) * (RAY * RAY) := by
        have hHR : HALF_RAY < RAY := HALF_RAY_lt_RAY
        nlinarith
      have h5 : (s * RAY * r + HALF_RAY) / (RAY * RAY) < q + 1 := by
        rw [Int.ediv_lt_iff_lt_mul (mul_pos RAY_pos RAY_pos)]
        nlinarith [h4]
      omega
    calc (s * RAY * r + HALF_RAY) / (RAY * RAY) * RAY ≤ q * RAY :=
          mul_le_mul_of_nonneg_right hle_q (le_of_lt RAY_pos)
      _ ≤ s * I := hqmul

/-- Summed form of `underlying_mul_RAY_le` over a position list. -/
theorem total_underlying_mul_RAY_le (positions : List SupplyPos) (I : Int)
    (hinv : ∀ p ∈ positions, 0 ≤ p.atoken_amount ∧ RAY ≤ p.liquidity_index_at_supply)
    (hI : 0 ≤ I) :
    total_underlying positions I * RAY ≤ total_atokens positions * I := by
  induction positions with
  | nil => simp [total_underlying, total_atokens]
  | cons p ps ih =>
      have hp := hinv p (List.mem_cons_self p ps)
      have hrest := ih (fun q hq => hinv q (List.mem_cons_of_mem p hq))
      have hhead := underlying_mul_RAY_le p I hp.1 hp.2 hI
      simp only [total_underlying, total_atokens]
      nlinarith [hhead, hrest]

/-- Shares are non-negative, so their total is. -/
theorem total_atokens_nonneg (positions : List SupplyPos)
    (h : ∀ p ∈ positions, 0 ≤ p.atoken_amount) :
    0 ≤ total_atokens positions := by
  induction positions with
  | nil => simp [total_atokens]
  | cons p ps ih =>
      have := h p (List.mem_cons_self p ps)
      have := ih (fun q hq => h q (List.mem_cons_of_mem p hq))
      simp only [total_atokens]
      linarith

/-- The conversion of the withdrawal amount to shares never asks for more
shares than `TA` when `amount * RAY ≤ TA * I`. -/
theorem calculate_atoken_amount_le {a I TA : Int} (hI : 0 < I)
    (h : a * RAY ≤ TA * I) :
    calculate_atoken_amount a I ≤ TA := by
  rw [calculate_atoken_amount, ray_div, Int.fdiv_eq_ediv _ (le_of_lt RAY_pos),
    Int.fdiv_eq_ediv _ (le_of_lt hI), Int.fdiv_eq_ediv _ (by decide : (0:Int) ≤ 2),
    ediv_ediv hI RAY_pos]
  have hhalf : I / 2 < I := by omega
  have h2 : a * RAY * RAY ≤ TA * I * RAY :=
    mul_le_mul_of_nonneg_right h (le_of_lt RAY_pos)
  have h3 : I ≤ I * RAY := by nlinarith [one_le_RAY, hI]
  have h4 : a * RAY * RAY + I / 2 < (TA + 1) * (I * RAY) := by nlinarith
  have h5 : (a * RAY * RAY + I / 2) / (I * RAY) < TA + 1 := by
    rw [Int.ediv_lt_iff_lt_mul (mul_pos hI RAY_pos)]
    nlinarith [h4]
  omega

/-- The FIFO burn loop consumes the full request whenever the request does
not exceed the total shares held. -/
theorem burnFIFO_complete (positions : List SupplyPos) :
    ∀ remaining : Int, (∀ p ∈ positions, 0 ≤ p.atoken_amount) →
      remaining ≤ total_atokens positions → (burnFIFO positions remaining).2 ≤ 0 := by
  induction positions with
  | nil =>
      intro remaining _ h
      simpa [burnFIFO, total_atokens] using h
  | cons p ps ih =>
      intro remaining hs h
      by_cases hrem : remaining ≤ 0
      · simp [burnFIFO, hrem]
      · have hp := hs p (List.mem_cons_self p ps)
        have hta := total_atokens_nonneg ps (fun q hq => hs q (List.mem_cons_of_mem p hq))
        simp only [burnFIFO, if_neg hrem]
        apply ih _ (fun q hq => hs q (List.mem_cons_of_mem p hq))
        simp only [total_atokens] at h
        rcases le_total p.atoken_amount remaining with hle | hle
        · rw [min_eq_left hle]; linarith
        · rw [min_eq_right hle]; linarith

/-- C8: for every withdraw request against positions satisfying the data
model invariants (non-negative share amounts, opening indices at least the
initial index RAY) and a positive post-accrual liquidity index:
the insufficient-balance error occurs exactly when the requested amount
exceeds the summed current underlying value of the positions (`available`)
while the earlier guards pass — the position list carries positive balance
(which forces it to be non-empty); the insufficient-liquidity error occurs
exactly when the reserve liquidity is below the resolved amount to withdraw;
on success a zero request withdraws exactly the full available balance; and
the burn loop's internal consistency error is unreachable. -/
theorem withdraw_spec (positions : List SupplyPos) (total_liquidity liquidity_index amount : Int)
    (hinv : ∀ p ∈ positions, 0 ≤ p.atoken_amount ∧ RAY ≤ p.liquidity_index_at_supply)
    (hI : 0 < liquidity_index) :
    (withdraw positions total_liquidity liquidity_index amount =
        .error .insufficientBalance ↔
      0 < total_underlying positions liquidity_index ∧ 0 < total_atokens positions ∧
        total_underlying positions liquidity_index < amount) ∧
    (withdraw positions total_liquidity liquidity_index amount =
        .error .insufficientLiquidity ↔
      0 < total_underlying positions liquidity_index ∧ 0 < total_atokens positions ∧
        0 ≤ amount ∧
        amount_to_withdraw positions liquidity_index amount ≤
          total_underlying positions liquidity_index ∧
        total_liquidity < amount_to_withdraw positions liquidity_index amount) ∧
    (∀ out, amount = 0 →
      withdraw positions total_liquidity liquidity_index amount = .ok out →
      out.amount_withdrawn = total_underlying positions liquidity_index) ∧
    withdraw positions total_liquidity liquidity_index amount ≠
      .error .burnInconsistent := by
  have hsum : total_underlying positions liquidity_index * RAY ≤
      total_atokens positions * liquidity_index :=
    total_underlying_mul_RAY_le positions liquidity_index hinv (le_of_lt hI)
  refine ⟨?_, ?_, ?_, ?_⟩
  · constructor
    · intro h
      unfold withdraw at h
      by_cases h1 : amount < 0
      · rw [if_pos h1] at h; exact absurd h (by simp)
      rw [if_neg h1] at h
      by_cases h2 : positions = []
      · rw [if_pos h2] at h; exact absurd h (by simp)
      rw [if_neg h2] at h
      by_cases h3 : total_underlying positions liquidity_index ≤ 0 ∨
          total_atokens positions ≤ 0
      · rw [if_pos h3] at h; exact absurd h (by simp)
      rw [if_neg h3] at h
      push_neg at h3
      by_cases h4 : total_underlying positions liquidity_index <
          amount_to_withdraw positions liquidity_index amount
      · rw [amount_to_withdraw] at h4
        split_ifs at h4 with h0
        · exact absurd h4 (lt_irrefl _)
        · exact ⟨by omega, by omega, h4⟩
      · rw [if_neg h4] at h
        split_ifs at h <;> exact absurd h (by simp)
    · rintro ⟨htu, hta, hlt⟩
      have hne : positions ≠ [] := by
        intro hcon
        rw [hcon] at hta
        exact absurd hta (by simp [total_atokens])
      have hamteq : amount_to_withdraw positions liquidity_index amount = amount := by
        rw [amount_to_withdraw, if_neg (by omega : ¬ amount = 0)]
      unfold withdraw
      rw [if_neg (by omega : ¬ amount < 0), if_neg hne,
        if_neg (show ¬ (total_underlying positions liquidity_index ≤ 0 ∨
          total_atokens positions ≤ 0) by omega),
        if_pos (by rw [hamteq]; omega)]
  · constructor
    · intro h
      unfold withdraw at h
      by_cases h1 : amount < 0
      · rw [if_pos h1] at h; exact absurd h (by simp)
      rw [if_neg h1] at h
      by_cases h2 : positions = []
      · rw [if_pos h2] at h; exact absurd h (by simp)
      rw [if_neg h2] at h
      by_cases h3 : total_underlying positions liquidity_index ≤ 0 ∨
          total_atokens positions ≤ 0
      · rw [if_pos h3] at h; exact absurd h (by simp)
      rw [if_neg h3] at h
      push_neg at h3
      by_cases h4 : total_underlying positions liquidity_index <
          amount_to_withdraw positions liquidity_index amount
      · rw [if_pos h4] at h; exact absurd h (by simp)
      rw [if_neg h4] at h
      by_cases h5 : total_liquidity < amount_to_withdraw positions liquidity_index amount
      · exact ⟨by omega, by omega, by omega, not_lt.mp h4, h5⟩
      · rw [if_neg h5] at h
        split_ifs at h <;> exact absurd h (by simp)
    · rintro ⟨htu, hta, ha0, hamtle, hliq⟩
      have hne : positions ≠ [] := by
        intro hcon
        rw [hcon] at hta
        exact absurd hta (by simp [total_atokens])
      unfold withdraw
      rw [if_neg (by omega : ¬ amount < 0), if_neg hne,
        if_neg (show ¬ (total_underlying positions liquidity_index ≤ 0 ∨
          total_atokens positions ≤ 0) by omega),
        if_neg (not_lt.mpr hamtle), if_pos hliq]
  · intro out h0 hok
    unfold withdraw at hok
    split_ifs at hok <;> simp at hok
    subst hok
    simp [amount_to_withdraw, h0]
  · intro hW
    unfold withdraw at hW
    split_ifs at hW with h1 h2 h3 h4 h5 h6 h7 <;> simp at hW
    have hamtle : amount_to_withdraw positions liquidity_index amount ≤
        total_underlying positions liquidity_index := not_lt.mp h4
    have hamtRAY : amount_to_withdraw positions liquidity_index amount * RAY ≤
        total_underlying positions liquidity_index * RAY :=
      mul_le_mul_of_nonneg_right hamtle (le_of_lt RAY_pos)
    have htoburn : calculate_atoken_amount
        (amount_to_withdraw positions liquidity_index amount) liquidity_index ≤
        total_atokens positions :=
      calculate_atoken_amount_le hI (le_trans hamtRAY hsum)
    have hfifo := burnFIFO_complete positions
      (calculate_atoken_amount (amount_to_withdraw positions liquidity_index amount)
        liquidity_index)
      (fun p hp => (hinv p hp).1) htoburn
    omega

/-- C8 witness: one position of 100 shares opened at index RAY, reserve
liquidity 1000, full withdrawal (`amount = 0`). -/
theorem withdraw_spec_witness :
    ((withdraw [⟨100, RAY⟩] 1000 RAY 0 = .error .insufficientBalance ↔
        0 < total_underlying [⟨100, RAY⟩] RAY ∧ 0 < total_atokens [⟨100, RAY⟩] ∧
          total_underlying [⟨100, RAY⟩] RAY < 0) ∧
      (withdraw [⟨100, RAY⟩] 1000 RAY 0 = .error .insufficientLiquidity ↔
        0 < total_underlying [⟨100, RAY⟩] RAY ∧ 0 < total_atokens [⟨100, RAY⟩] ∧
          (0 : Int) ≤ 0 ∧
          amount_to_withdraw [⟨100, RAY⟩] RAY 0 ≤ total_underlying [⟨100, RAY⟩] RAY ∧
          1000 < amount_to_withdraw [⟨100, RAY⟩] RAY 0) ∧
      (∀ out, (0 : Int) = 0 → withdraw [⟨100, RAY⟩] 1000 RAY 0 = .ok out →
        out.amount_withdrawn = total_underlying [⟨100, RAY⟩] RAY) ∧
      withdraw [⟨100, RAY⟩] 1000 RAY 0 ≠ .error .burnInconsistent) :=
  withdraw_spec [⟨100, RAY⟩] 1000 RAY 0 (by decide) (by decide)

/-! ## Oracle values and the debt engine (`oracle_service.py`,
`debt_service.py`)

`OracleService.get_asset_value` returns `None` both when no price feed exists
and when the feed is stale; the `Option Int` price argument below folds these
two causes into `none`.  The callers test the returned value with Python
truthiness (`if not value:`), so a present-but-zero value is treated like a
missing one; the embedding keeps that behaviour explicit. -/

/-- `DebtService.LTV_BTC = int(0.75 * RAY)`. -/
def LTV_BTC : Int := 750000000000000078685143040

/-- `DebtService.LIQUIDATION_THRESHOLD_BTC = int(0.80 * RAY)`. -/
def LIQUIDATION_THRESHOLD_BTC : Int := 800000000000000038117834752

/-- `DebtService.LIQUIDATION_BONUS = int(0.05 * RAY)`. -/
def LIQUIDATION_BONUS : Int := 50000000000000002382364672

/-- `OracleService.get_asset_value`: `none` when the price is unavailable or
stale, otherwise `ray_mul(amount, price) // 10^8`
(`OracleService.calculate_value`). -/
def get_asset_value (amount : Int) : Option Int → Option Int
  | none => none
  | some price => some (Int.fdiv (ray_mul amount price) 100000000)

/-- A debt position (`DebtPosition`): principal, the borrow index recorded at
open, and the locked collateral. -/
structure DebtPos where
  principal : Int
  borrow_index_at_open : Int
  collateral_amount : Int
  deriving DecidableEq

/-- `DebtService.get_position_health_factor` after the reserve borrow index
has been brought current (`current_borrow_index`): `none` when the position
has no outstanding debt or when either oracle value is missing or zero,
otherwise `ray_div(ray_mul(collateral_value, threshold), debt_value)`. -/
def get_position_health_factor (pos : DebtPos) (current_borrow_index : Int)
    (debt_price collateral_price : Option Int) : Option Int :=
  if calculate_current_debt pos.principal pos.borrow_index_at_open current_borrow_index ≤ 0 then
    none
  else
    match get_asset_value
        (calculate_current_debt pos.principal pos.borrow_index_at_open current_borrow_index)
        debt_price,
      get_asset_value pos.collateral_amount collateral_price with
    | some debt_value, some collateral_value =>
        if debt_value = 0 ∨ collateral_value = 0 then none
        else some (ray_div (ray_mul collateral_value LIQUIDATION_THRESHOLD_BTC) debt_value)
    | _, _ => none

/-- Errors raised by `DebtService.liquidate` once the position, its owner and
its reserve have been loaded (those three lookups are persistence concerns
outside this model). -/
inductive LiqError where
  | noDebt
  | noHealthFactor
  | healthy
  | nonPositiveRepay
  deriving DecidableEq

/-- The repay amount `DebtService.liquidate` settles on: the caller's request
when it is positive and at most the current debt, the full current debt
otherwise (also when the request is omitted). -/
def effective_repay (current_debt : Int) : Option Int → Int
  | none => current_debt
  | some r => if r ≤ 0 ∨ current_debt < r then current_debt else r

/-- `collateral_base` in `DebtService.liquidate`:
`(collateral_amount * repay_amount) // current_debt` (a floor division). -/
def collateral_base (pos : DebtPos) (repay current_debt : Int) : Int :=
  Int.fdiv (pos.collateral_amount * repay) current_debt

/-- `bonus_collateral` in `DebtService.liquidate`:
`(collateral_base * LIQUIDATION_BONUS) // RAY` (a floor division). -/
def bonus_collateral (base : Int) : Int :=
  Int.fdiv (base * LIQUIDATION_BONUS) RAY

/-- `collateral_to_seize` in `DebtService.liquidate` (before the full
liquidation override): proportional share plus bonus, capped at the
position's collateral. -/
def collateral_seized (pos : DebtPos) (repay current_debt : Int) : Int :=
  min pos.collateral_amount
    (collateral_base pos repay current_debt +
      bonus_collateral (collateral_base pos repay current_debt))

/-- The state changes `DebtService.liquidate` commits. -/
structure LiquidationOutcome where
  repaid_amount : Int
  collateral_seized : Int
  position_closed : Bool
  new_position : Option DebtPos
  new_total_borrowed : Int
  new_total_liquidity : Int
  deriving DecidableEq

/-- `DebtService.liquidate` after the reserve borrow index accrual:
`current_borrow_index` is the accrued index, the two `Option Int` prices feed
the oracle lookups, and `repay_request` is the caller's optional repay
amount.  A full liquidation (nothing left owed) seizes the whole collateral
and deletes the position; a partial one reduces collateral and principal and
resets the recorded opening index. -/
def liquidate (pos : DebtPos) (current_borrow_index : Int)
    (debt_price collateral_price : Option Int)
    (total_borrowed total_liquidity : Int)
    (repay_request : Option Int) : Except LiqError LiquidationOutcome :=
  if calculate_current_debt pos.principal pos.borrow_index_at_open current_borrow_index ≤ 0 then
    .error .noDebt
  else
    match get_position_health_factor pos current_borrow_index debt_price collateral_price with
    | none => .error .noHealthFactor
    | some health_factor =>
      if RAY ≤ health_factor then .error .healthy
      else if effective_repay
          (calculate_current_debt pos.principal pos.borrow_index_at_open current_borrow_index)
          repay_request ≤ 0 then
        .error .nonPositiveRepay
      else if calculate_current_debt pos.principal pos.borrow_index_at_open
            current_borrow_index -
          effective_repay
            (calculate_current_debt pos.principal pos.borrow_index_at_open current_borrow_index)
            repay_request ≤ 0 then
        .ok ⟨effective_repay
               (calculate_current_debt pos.principal pos.borrow_index_at_open
                 current_borrow_index) repay_request,
             pos.collateral_amount, true, none,
             max 0 (total_borrowed -
               effective_repay
                 (calculate_current_debt pos.principal pos.borrow_index_at_open
                   current_borrow_index) repay_request),
             total_liquidity +
               effective_repay
                 (calculate_current_debt pos.principal pos.borrow_index_at_open
                   current_borrow_index) repay_request⟩
      else
        .ok ⟨effective_repay
               (calculate_current_debt pos.principal pos.borrow_index_at_open
                 current_borrow_index) repay_request,
             collateral_seized pos
               (effective_repay
                 (calculate_current_debt pos.principal pos.borrow_index_at_open
                   current_borrow_index) repay_request)
               (calculate_current_debt pos.principal pos.borrow_index_at_open
                 current_borrow_index),
             false,
             some ⟨calculate_current_debt pos.principal pos.borrow_index_at_open
                 current_borrow_index -
                 effective_repay
                   (calculate_current_debt pos.principal pos.borrow_index_at_open
                     current_borrow_index) repay_request,
               current_borrow_index,
               pos.collateral_amount -
                 collateral_seized pos
                   (effective_repay
                     (calculate_current_debt pos.principal pos.borrow_index_at_open
                       current_borrow_index) repay_request)
                   (calculate_current_debt pos.principal pos.borrow_index_at_open
                     current_borrow_index)⟩,
             max 0 (total_borrowed -
               effective_repay
                 (calculate_current_debt pos.principal pos.borrow_index_at_open
                   current_borrow_index) repay_request),
             total_liquidity +
               effective_repay
                 (calculate_current_debt pos.principal pos.borrow_index_at_open
                   current_borrow_index) repay_request⟩

/-- A position that has a health factor has positive current debt. -/
theorem debt_pos_of_health_factor {pos : DebtPos} {current_borrow_index hf : Int}
    {debt_price collateral_price : Option Int}
    (h : get_position_health_factor pos current_borrow_index debt_price collateral_price =
      some hf) :
    0 < calculate_current_debt pos.principal pos.borrow_index_at_open current_borrow_index := by
  unfold get_position_health_factor at h
  by_cases hcd : calculate_current_debt pos.principal pos.borrow_index_at_open
      current_borrow_index ≤ 0
  · rw [if_pos hcd] at h
    exact absurd h (by simp)
  · omega

/-- C4: for every liquidatable position (a health factor exists and is below
RAY) and a requested repay amount strictly between 0 and the current debt,
liquidate performs a partial liquidation: it repays exactly the request,
seizes `min(collateral_amount, floor(collateral_amount * repay / current_debt)
+ floor(base * liquidation_bonus / S))` collateral (the `Int.fdiv` here are
floor divisions), and leaves the position open with
`principal = current_debt - repay`, collateral reduced by the seized amount,
and the opening index reset to the accrued borrow index. -/
theorem liquidate_partial_spec (pos : DebtPos) (current_borrow_index : Int)
    (debt_price collateral_price : Option Int) (total_borrowed total_liquidity : Int)
    (repay hf : Int)
    (hhf : get_position_health_factor pos current_borrow_index debt_price collateral_price =
      some hf)
    (hlt : hf < RAY)
    (hr0 : 0 < repay)
    (hrcd : repay <
      calculate_current_debt pos.principal pos.borrow_index_at_open current_borrow_index) :
    liquidate pos current_borrow_index debt_price collateral_price total_borrowed
        total_liquidity (some repay) =
      .ok ⟨repay,
           collateral_seized pos repay
             (calculate_current_debt pos.principal pos.borrow_index_at_open
               current_borrow_index),
           false,
           some ⟨calculate_current_debt pos.principal pos.borrow_index_at_open
               current_borrow_index - repay,
             current_borrow_index,
             pos.collateral_amount -
               collateral_seized pos repay
                 (calculate_current_debt pos.principal pos.borrow_index_at_open
                   current_borrow_index)⟩,
           max 0 (total_borrowed - repay), total_liquidity + repay⟩ := by
  have hcd := debt_pos_of_health_factor hhf
  have her : effective_repay
      (calculate_current_debt pos.principal pos.borrow_index_at_open current_borrow_index)
      (some repay) = repay := by
    simp only [effective_repay]
    rw [if_neg (by omega)]
  unfold liquidate
  simp only [hhf]
  rw [if_neg (not_le.mpr hcd), if_neg (not_le.mpr hlt), her,
    if_neg (by omega : ¬ repay ≤ 0),
    if_neg (by omega : ¬ calculate_current_debt pos.principal pos.borrow_index_at_open
      current_borrow_index - repay ≤ 0)]

/-- C4 witness: the spec's worked example: debt 1,000,000, collateral
2,000,000, repay 400,000, 5% bonus: seizes 840,000 (base 800,000 + bonus
40,000) and leaves principal 600,000 and collateral 1,160,000. -/
theorem liquidate_partial_spec_witness :
    liquidate ⟨1000000, RAY, 2000000⟩ RAY (some (60000 * RAY)) (some (30000 * RAY))
        5000000 1000000 (some 400000) =
      .ok ⟨400000, 840000, false, some ⟨600000, RAY, 1160000⟩, 4600000, 1400000⟩ := by
  have h := liquidate_partial_spec ⟨1000000, RAY, 2000000⟩ RAY (some (60000 * RAY))
    (some (30000 * RAY)) 5000000 1000000 400000 800000000000000000000000000
    (by decide) (by decide) (by decide) (by decide)
  rw [h]
  exact congrArg Except.ok (by decide)

/-- C5: for every liquidatable position, an omitted, zero, negative, or
greater-than-current-debt requested repay amount is treated identically as a
full repayment of the current debt; the full liquidation seizes all of the
position's remaining collateral (overriding the proportional-plus-bonus
figure) and deletes the position, moving the repaid amount back into reserve
liquidity. -/
theorem liquidate_full_spec (pos : DebtPos) (current_borrow_index : Int)
    (debt_price collateral_price : Option Int) (total_borrowed total_liquidity : Int)
    (repay_request : Option Int) (hf : Int)
    (hhf : get_position_health_factor pos current_borrow_index debt_price collateral_price =
      some hf)
    (hlt : hf < RAY)
    (hreq : ∀ r, repay_request = some r →
      r ≤ 0 ∨
        calculate_current_debt pos.principal pos.borrow_index_at_open current_borrow_index < r) :
    liquidate pos current_borrow_index debt_price collateral_price total_borrowed
        total_liquidity repay_request =
      .ok ⟨calculate_current_debt pos.principal pos.borrow_index_at_open current_borrow_index,
           pos.collateral_amount, true, none,
           max 0 (total_borrowed -
             calculate_current_debt pos.principal pos.borrow_index_at_open
               current_borrow_index),
           total_liquidity +
             calculate_current_debt pos.principal pos.borrow_index_at_open
               current_borrow_index⟩ := by
  have hcd := debt_pos_of_health_factor hhf
  have her : effective_repay
      (calculate_current_debt pos.principal pos.borrow_index_at_open current_borrow_index)
      repay_request =
      calculate_current_debt pos.principal pos.borrow_index_at_open current_borrow_index := by
    cases repay_request with
    | none => rfl
    | some r =>
        simp only [effective_repay]
        rw [if_pos (hreq r rfl)]
  unfold liquidate
  simp only [hhf]
  rw [if_neg (not_le.mpr hcd), if_neg (not_le.mpr hlt), her,
    if_neg (not_le.mpr hcd),
    if_pos (by omega : calculate_current_debt pos.principal pos.borrow_index_at_open
        current_borrow_index -
      calculate_current_debt pos.principal pos.borrow_index_at_open current_borrow_index ≤ 0)]

/-- C5 witness: the spec's worked example with the repay amount omitted:
debt 1,000,000, collateral 2,000,000, 5% bonus — repays exactly 1,000,000,
seizes exactly 2,000,000 (capped), and deletes the position. -/
theorem liquidate_full_spec_witness :
    liquidate ⟨1000000, RAY, 2000000⟩ RAY (some (60000 * RAY)) (some (30000 * RAY))
        5000000 1000000 none =
      .ok ⟨1000000, 2000000, true, none, 4000000, 2000000⟩ := by
  have h := liquidate_full_spec ⟨1000000, RAY, 2000000⟩ RAY (some (60000 * RAY))
    (some (30000 * RAY)) 5000000 1000000 none 800000000000000000000000000
    (by decide) (by decide) (fun r hr => by cases hr)
  rw [h]
  exact congrArg Except.ok (by decide)

/-! ## Aggregate health factor (`DebtService.calculate_health_factor`) and
borrow (`DebtService.borrow`) -/

/-- A debt position as `DebtService.calculate_health_factor` sees it,
together with the oracle and reserve data its loops look up: the collateral
price (`none` = unavailable or stale), the borrowed asset's reserve borrow
index (`none` = reserve row missing), and the borrowed asset's price. -/
structure HFPos where
  principal : Int
  borrow_index_at_open : Int
  collateral_amount : Int
  collateral_price : Option Int
  reserve_borrow_index : Option Int
  debt_price : Option Int
  deriving DecidableEq

/-- Contribution of one position to `total_collateral_value`: the code adds
the oracle value only when it is truthy (`if collateral_value:`), which is
the same as adding 0 for a missing or zero value. -/
def collateral_contribution (p : HFPos) : Int :=
  (get_asset_value p.collateral_amount p.collateral_price).getD 0

/-- Contribution of one position to `total_debt_value`: skipped when the
borrowed asset's reserve is missing, otherwise the truthy oracle value of the
current debt. -/
def debt_contribution (p : HFPos) : Int :=
  match p.reserve_borrow_index with
  | none => 0
  | some idx =>
      (get_asset_value (calculate_current_debt p.principal p.borrow_index_at_open idx)
        p.debt_price).getD 0

/-- `total_collateral_value` accumulated over the user's debt positions. -/
def total_collateral_value : List HFPos → Int
  | [] => 0
  | p :: ps => collateral_contribution p + total_collateral_value ps

/-- `total_debt_value` accumulated over the user's debt positions. -/
def total_debt_value : List HFPos → Int
  | [] => 0
  | p :: ps => debt_contribution p + total_debt_value ps

/-- `DebtService.calculate_health_factor` for an existing user with the given
debt positions: `none` for no positions or zero summed debt value, otherwise
`ray_div(ray_mul(total_collateral_value, threshold), total_debt_value)`. -/
def calculate_health_factor (positions : List HFPos) : Option Int :=
  if positions = [] then none
  else if total_debt_value positions = 0 then none
  else some (ray_div (ray_mul (total_collateral_value positions) LIQUIDATION_THRESHOLD_BTC)
    (total_debt_value positions))

/-- The validation errors `DebtService.borrow` can raise before committing
(user creation and the reserve-row lookup are persistence concerns outside
this model). -/
inductive BorrowError where
  | nonPositiveCollateral
  | nonPositiveBorrow
  | noCollateralPrice
  | noBorrowPrice
  | ltvExceeded
  | insufficientLiquidity
  deriving DecidableEq

/-- `DebtService.borrow` for an existing reserve: checks amounts, oracle
values (a missing, stale or zero value fails), the LTV cap, and reserve
liquidity, then creates the debt position at the accrued borrow index and
moves `borrow_amount` from `total_liquidity` to `total_borrowed`.  Returns
the new position and the updated `(total_borrowed, total_liquidity)`. -/
def borrow (collateral_amount borrow_amount : Int)
    (collateral_price borrow_price : Option Int)
    (total_borrowed total_liquidity current_borrow_index : Int) :
    Except BorrowError (DebtPos × Int × Int) :=
  if collateral_amount ≤ 0 then .error .nonPositiveCollateral
  else if borrow_amount ≤ 0 then .error .nonPositiveBorrow
  else
    match get_asset_value collateral_amount collateral_price with
    | none => .error .noCollateralPrice
    | some collateral_value =>
      if collateral_value = 0 then .error .noCollateralPrice
      else
        match get_asset_value borrow_amount borrow_price with
        | none => .error .noBorrowPrice
        | some borrow_value =>
          if borrow_value = 0 then .error .noBorrowPrice
          else if ray_mul collateral_value LTV_BTC < borrow_value then .error .ltvExceeded
          else if total_liquidity < borrow_amount then .error .insufficientLiquidity
          else .ok (⟨borrow_amount, current_borrow_index, collateral_amount⟩,
                    total_borrowed + borrow_amount,
                    total_liquidity - borrow_amount)

/-- C6 counterexample: a user with one debt position whose collateral price
is unavailable (`none`) but whose debt is priced.  The aggregate
`calculate_health_factor` does not return undefined: it skips the unpriced
collateral (value 0) and returns `some 0` — a health factor computed as if
that collateral were worth zero. -/
theorem health_factor_some_with_unavailable_collateral_price :
    calculate_health_factor
        [⟨1000000, RAY, 2000000, none, some RAY, some (60000 * RAY)⟩] = some 0 := by
  decide

/-- C6 (amended): when a collateral price is unavailable, `borrow` and
`liquidate` do fail with the missing-price / undetermined-health-factor
errors rather than proceeding, as claimed; but `calculate_health_factor`
does not return undefined in that case: unpriced collateral simply
contributes zero to the collateral total, and for a user with positions the
result is undefined exactly when the summed debt value is zero. -/
theorem oracle_failure_handling :
    (∀ collateral_amount borrow_amount borrow_price total_borrowed total_liquidity
        current_borrow_index,
      0 < collateral_amount → 0 < borrow_amount →
      borrow collateral_amount borrow_amount none borrow_price total_borrowed
        total_liquidity current_borrow_index = .error .noCollateralPrice) ∧
    (∀ (pos : DebtPos) current_borrow_index debt_price total_borrowed total_liquidity
        repay_request,
      0 < calculate_current_debt pos.principal pos.borrow_index_at_open current_borrow_index →
      liquidate pos current_borrow_index debt_price none total_borrowed total_liquidity
        repay_request = .error .noHealthFactor) ∧
    (∀ positions : List HFPos, positions ≠ [] →
      (calculate_health_factor positions = none ↔ total_debt_value positions = 0)) := by
  refine ⟨?_, ?_, ?_⟩
  · intro ca ba bp tb tl idx hca hba
    unfold borrow
    rw [if_neg (by omega), if_neg (by omega)]
    rfl
  · intro pos idx dp tb tl rq hcd
    unfold liquidate
    rw [if_neg (not_le.mpr hcd)]
    have hnone : get_position_health_factor pos idx dp none = none := by
      unfold get_position_health_factor
      rw [if_neg (not_le.mpr hcd)]
      cases get_asset_value
          (calculate_current_debt pos.principal pos.borrow_index_at_open idx) dp <;> rfl
    rw [hnone]
  · intro positions hne
    unfold calculate_health_factor
    rw [if_neg hne]
    by_cases hdv : total_debt_value positions = 0
    · simp [hdv]
    · simp [hdv]

/-- C6 witness: concrete instances of the three amended facts. -/
theorem oracle_failure_handling_witness :
    borrow 1000 1000 none (some RAY) 0 100000 RAY = .error .noCollateralPrice ∧
    liquidate ⟨1000000, RAY, 2000000⟩ RAY (some (60000 * RAY)) none 0 0 none =
      .error .noHealthFactor ∧
    (calculate_health_factor [⟨1000000, RAY, 2000000, none, some RAY, some (60000 * RAY)⟩] =
        none ↔
      total_debt_value [⟨1000000, RAY, 2000000, none, some RAY, some (60000 * RAY)⟩] = 0) :=
  ⟨oracle_failure_handling.1 1000 1000 (some RAY) 0 100000 RAY (by decide) (by decide),
   oracle_failure_handling.2.1 ⟨1000000, RAY, 2000000⟩ RAY (some (60000 * RAY)) 0 0 none
     (by decide),
   oracle_failure_handling.2.2 _ (by decide)⟩

/-! ## Reserve balance transitions (claim C1)

The four operations mutate a reserve's `(total_liquidity, total_borrowed)`
pair as follows in the source:
supply adds the amount to liquidity (`ReserveService.supply`); withdraw
checks `total_liquidity < amount` and subtracts (`ReserveService.withdraw`);
borrow checks `total_liquidity < borrow_amount`, then adds to borrowed and
subtracts from liquidity (`DebtService.borrow`); liquidate floors borrowed at
zero and adds the repaid amount to liquidity (`DebtService.liquidate`).
`applyOp` is that projection onto the balance fields; guards that do not
involve these fields (oracle prices, LTV, the caller's own positions) are
omitted, which only enlarges the set of successful transitions, so an
invariant proved over `applyOp` holds for the full operations, and the
counterexample transition is exhibited on the full `borrow` model as well. -/

/-- The two balance fields of `ReserveState` that the solvency claim is
about. -/
structure Reserve where
  total_liquidity : Int
  total_borrowed : Int
  deriving DecidableEq

/-- The claimed solvency invariant: `total_borrowed ≤ total_liquidity`. -/
def Solvent (r : Reserve) : Prop := r.total_borrowed ≤ r.total_liquidity

instance (r : Reserve) : Decidable (Solvent r) := by
  unfold Solvent
  infer_instance

/-- One reserve-mutating operation with its resolved amount. -/
inductive ReserveOp where
  | supply (amount : Int)
  | withdraw (amount_to_withdraw : Int)
  | borrow (amount : Int)
  | liquidate (repay : Int)
  deriving DecidableEq

/-- Effect of one successfully committed operation on the reserve balances
(`none` when the operation's balance-related validation fails). -/
def applyOp (r : Reserve) : ReserveOp → Option Reserve
  | .supply amount =>
      if amount ≤ 0 then none
      else some ⟨r.total_liquidity + amount, r.total_borrowed⟩
  | .withdraw amount =>
      if amount ≤ 0 then none
      else if r.total_liquidity < amount then none
      else some ⟨r.total_liquidity - amount, r.total_borrowed⟩
  | .borrow amount =>
      if amount ≤ 0 then none
      else if r.total_liquidity < amount then none
      else some ⟨r.total_liquidity - amount, r.total_borrowed + amount⟩
  | .liquidate repay =>
      if repay ≤ 0 then none
      else some ⟨r.total_liquidity + repay, max 0 (r.total_borrowed - repay)⟩

/-- A sequence of operations, failing as soon as one fails. -/
def runOps (r : Reserve) : List ReserveOp → Option Reserve
  | [] => some r
  | op :: ops =>
      match applyOp r op with
      | none => none
      | some r2 => runOps r2 ops

/-- C1 counterexample: from the solvent reserve `(liquidity 10^8, borrowed
0)`, a single successful borrow of the full liquidity — shown both on the
full `borrow` model (all its validations pass) and on the balance projection
— leaves `total_borrowed = 10^8 > 0 = total_liquidity`: the claimed
invariant is not preserved. -/
theorem borrow_breaks_solvency :
    Solvent ⟨100000000, 0⟩ ∧
    borrow 100000000 100000000 (some (60000 * RAY)) (some RAY) 0 100000000 RAY =
      .ok (⟨100000000, RAY, 100000000⟩, 100000000, 0) ∧
    applyOp ⟨100000000, 0⟩ (.borrow 100000000) = some ⟨0, 100000000⟩ ∧
    ¬ Solvent ⟨0, 100000000⟩ := by
  refine ⟨by decide, by rfl, by decide, by decide⟩

/-- C1 (amended): the solvency inequality `total_borrowed ≤ total_liquidity`
is not preserved (see the counterexample), but starting from a reserve with
non-negative balances, any sequence of successful supply, withdraw, borrow
and liquidate operations keeps both `total_liquidity` and `total_borrowed`
non-negative. -/
theorem nonneg_balances_preserved (r : Reserve) (ops : List ReserveOp) (res : Reserve)
    (hl : 0 ≤ r.total_liquidity) (hb : 0 ≤ r.total_borrowed)
    (h : runOps r ops = some res) :
    0 ≤ res.total_liquidity ∧ 0 ≤ res.total_borrowed := by
  induction ops generalizing r with
  | nil =>
      simp only [runOps, Option.some.injEq] at h
      rw [← h]
      exact ⟨hl, hb⟩
  | cons op ops ih =>
      cases hstep : applyOp r op with
      | none =>
          rw [runOps, hstep] at h
          exact absurd h (by simp)
      | some r2 =>
          rw [runOps, hstep] at h
          have hr2 : 0 ≤ r2.total_liquidity ∧ 0 ≤ r2.total_borrowed := by
            cases op with
            | supply amount =>
                rw [applyOp] at hstep
                split_ifs at hstep <;> simp at hstep
                rw [← hstep]
                constructor <;> simp <;> omega
            | withdraw amount =>
                rw [applyOp] at hstep
                split_ifs at hstep <;> simp at hstep
                rw [← hstep]
                constructor <;> simp <;> omega
            | borrow amount =>
                rw [applyOp] at hstep
                split_ifs at hstep <;> simp at hstep
                rw [← hstep]
                constructor <;> simp <;> omega
            | liquidate repay =>
                rw [applyOp] at hstep
                split_ifs at hstep <;> simp at hstep
                rw [← hstep]
                constructor <;> simp <;> omega
          exact ih r2 hr2.1 hr2.2 h

/-- C1 witness: a concrete four-operation run from `(100, 0)` ending at
`(50, 90)`, which has non-negative balances. -/
theorem nonneg_balances_preserved_witness :
    0 ≤ (Reserve.mk 50 90).total_liquidity ∧ 0 ≤ (Reserve.mk 50 90).total_borrowed :=
  nonneg_balances_preserved ⟨100, 0⟩
    [.supply 50, .borrow 120, .liquidate 30, .withdraw 10] ⟨50, 90⟩
    (by decide) (by decide) (by decide)

end SimpleLoan
